import Mathlib

/-!
Verification of the `individuums` evolutionary-simulation engine.

This file shallowly embeds the core of the repository (src/genes.rs,
src/andis.rs, src/creature.rs, src/world.rs) into Lean 4 and proves or
refutes the frozen specification claims about it.

Modelling conventions:
* Rust `u32` values are `Nat`; wrap-arounds are written with `% 2 ^ 32`
  where a draw produces a fresh 32-bit value.
* Rust `i32` coordinates are `Int`; `i32` division truncates toward zero,
  which is `Int.tdiv`.
* `f32` quantities (weights, neuron accumulators) are modelled as exact
  rationals `ℚ`; the only transcendental operation, `f32::tanh`, is an
  explicit function parameter `th : ℚ → ℚ` of the step evaluator, so
  theorems quantify over it and hypothesise only what they need of it
  (for the genuine `tanh`: `tanh 0 = 0`, and `tanh w > 1/2` for the
  weights in play).
* The single owned random stream `rand::Rng` is a structure holding one
  stream of raw integer draws (for `next_u32` and integer `gen_range`)
  and one stream of rational draws (for `gen_range(-1.0..1.0)`), plus a
  cursor advanced by every draw, preserving the draw order of the source.
  An integer `gen_range(0..hi)` draw is modelled as the raw draw reduced
  `% hi`; `gen_range` over an empty range panics in Rust, so every call
  site that can reach it is `Option`-valued and returns `none` there.
* Rust panics and non-termination are modelled with `Option`: fallible
  operations return `none` exactly where the source panics, and the
  generation-end refill `while` loop takes explicit fuel and returns
  `none` when the fuel is exhausted.
-/

namespace Individuums

/-- The injected random source (`rand::Rng`).  `ints i` is the `i`-th raw
integer draw, `rats i` the `i`-th rational draw of `gen_range(-1.0..1.0)`;
`idx` is the cursor, advanced by every draw of either kind so that the
single-stream draw order of the source is preserved. -/
structure Rng where
  ints : Nat → Nat
  rats : Nat → ℚ
  idx : Nat

/-- Model of `rng.next_u32()`: a fresh uniform 32-bit value. -/
def Rng.nextU32 (r : Rng) : Nat × Rng :=
  ((r.ints r.idx) % 2 ^ 32, ⟨r.ints, r.rats, r.idx + 1⟩)

/-- Model of `rng.gen_range(0..hi)` for integers: the raw draw reduced into the
range.  Rust panics when `hi = 0`; callers that can reach that case are
`Option`-valued and check for it before drawing. -/
def Rng.genRange (hi : Nat) (r : Rng) : Nat × Rng :=
  ((r.ints r.idx) % hi, ⟨r.ints, r.rats, r.idx + 1⟩)

/-- Model of `rng.gen_range(-1.0..1.0)`: a rational draw (used by the oscillator
sensor). -/
def Rng.genRangeQ (r : Rng) : ℚ × Rng :=
  (r.rats r.idx, ⟨r.ints, r.rats, r.idx + 1⟩)

/-- Thread an `Option`-valued, rng-consuming function over a list, in
order (the shape of `iter().map(..).collect()` when every element draws
from the rng and any element may panic). -/
def mapRngO (f : α → Rng → Option (β × Rng)) : List α → Rng → Option (List β × Rng)
  | [], r => some ([], r)
  | x :: xs, r =>
    match f x r with
    | none => none
    | some (y, r') =>
      match mapRngO f xs r' with
      | none => none
      | some (ys, r'') => some (y :: ys, r'')

-- -------------------------------------------------------------------------
-- genes.rs: the Nucl capability and the generic Genom
-- -------------------------------------------------------------------------

/-- The `Nucl` trait of src/genes.rs, restricted to the operations the
verified claims exercise.  `crossover a b` is the nucleotide-level
crossover; `Default` (the `dflt` field) supplies the default unit used by
`Genom::cut`. -/
class Nucl (N : Type) where
  crossover : N → N → N
  dflt : N

/-- The `Scorer` trait of src/genes.rs. -/
class Scorer (S : Type) where
  score : S → ℚ

/-- Model of `Genom<N, S>`: an ordered sequence of nucleotides plus an optional,
lazily attached scorer. -/
structure Genom (N S : Type) where
  nucleotides : List N
  scorer : Option S
deriving DecidableEq

/-- The common offspring computation of `Genom::crossover` and
`Genom::crossover_mut` (their two `extend` expressions are textually
identical in the source): loci `[0,k)` are `N::crossover(a[i], b[i])`,
loci `[k, ..)` are `N::crossover(b[i], a[i])`, over the zip of the two
parents. -/
def Genom.crossoverCore [Nucl N] (a b : List N) (k : Nat) : List N :=
  (((a.zip b).take k).map fun p => Nucl.crossover p.1 p.2)
    ++ (((a.zip b).drop k).map fun p => Nucl.crossover p.2 p.1)

/-- Model of `Genom::crossover(a, b, rng)`.  The cut index is
`rng.gen_range(0..a.nucleotides.len())`, which panics (`none`) when `a`
is empty; no length check of any kind is performed on `b`.  The child is
unscored. -/
def Genom.crossover? [Nucl N] (a b : Genom N S) (rng : Rng) :
    Option (Genom N S × Rng) :=
  if a.nucleotides.length = 0 then none
  else
    let (k, r') := rng.genRange a.nucleotides.length
    some (⟨Genom.crossoverCore a.nucleotides b.nucleotides k, none⟩, r')

/-- Model of `Genom::crossover_mut(a, b, child, rng)`: same draw and same offspring
computation as `crossover`, but the result overwrites the `child` buffer's
nucleotides (`set_len(0)` followed by the two `extend`s); the child's
scorer field is left untouched. -/
def Genom.crossoverMut? [Nucl N] (a b child : Genom N S) (rng : Rng) :
    Option (Genom N S × Rng) :=
  if a.nucleotides.length = 0 then none
  else
    let (k, r') := rng.genRange a.nucleotides.length
    some ({ child with
              nucleotides := Genom.crossoverCore a.nucleotides b.nucleotides k },
          r')

/-- Model of `Genom::crossover_cut(a, b, rng)`: same cut-index draw; the child is
the literal concatenation of `a`'s prefix `[0,k)` and `b`'s suffix
`[k,..)`. -/
def Genom.crossoverCut? [Nucl N] (a b : Genom N S) (rng : Rng) :
    Option (Genom N S × Rng) :=
  if a.nucleotides.length = 0 then none
  else
    let (k, r') := rng.genRange a.nucleotides.length
    some (⟨a.nucleotides.take k ++ b.nucleotides.drop k, none⟩, r')

/-- Model of `Genom::cut(len)`: skip the first `len` nucleotides, then push `len`
default units one by one (the `for _ in 0..len` loop of the source). -/
def Genom.cut [Nucl N] (g : Genom N S) (len : Nat) : Genom N S :=
  { g with
      nucleotides :=
        (List.range len).foldl (fun acc _ => acc ++ [Nucl.dflt])
          (g.nucleotides.drop len) }

-- -------------------------------------------------------------------------
-- andis.rs: the AndiN nucleotide and its codec
-- -------------------------------------------------------------------------

/-- Model of `AndiN`: a heritable unit wrapping a raw 32-bit word. -/
structure AndiN where
  encoded : Nat
deriving DecidableEq

/-- Model of `AndiN::decode`: wrap a raw word, no validation. -/
def AndiN.decode (encoded : Nat) : AndiN := ⟨encoded⟩

/-- The sensor vocabulary (`InputNeurons`), without the `COUNT` marker
variant: `PR = 0`, `PL = 1`, `Osc = 2`, and `COUNT = 3` is the modulus. -/
inductive InputNeurons
  | PR
  | PL
  | Osc
deriving DecidableEq

/-- The actuator vocabulary (`OutputNeurons`), without the `COUNT` marker
variant: `MvN = 0`, `MvS = 1`, `MvW = 2`, `MvE = 3`, `Wait = 4`, and
`COUNT = 5` is the modulus. -/
inductive OutputNeurons
  | MvN
  | MvS
  | MvW
  | MvE
  | Wait
deriving DecidableEq

/-- The accumulator index of an actuator (`OutputNeurons as usize`). -/
def OutputNeurons.idx : OutputNeurons → Nat
  | .MvN => 0
  | .MvS => 1
  | .MvW => 2
  | .MvE => 3
  | .Wait => 4

/-- Model of `From<u32> for InputNeurons`: `(encoded >> 24) as u8` (the cast is
`% 256`) reduced modulo `InputNeurons::COUNT = 3`; the `from_u8` fallback
branch of the source returns `Osc` and is unreachable for a residue < 3. -/
def AndiN.input (a : AndiN) : InputNeurons :=
  match ((a.encoded >>> 24) % 256) % 3 with
  | 0 => .PR
  | 1 => .PL
  | _ => .Osc

/-- Model of `AndiN::weight()`: the middle 16 bits over 65536, an exact value of
the source's `f32` computation. -/
def AndiN.weight (a : AndiN) : ℚ :=
  (((a.encoded >>> 8) &&& 0xFFFF : Nat) : ℚ) / 65536

/-- Model of `From<u32> for OutputNeurons`: `(encoded & 0xFF) as u8` reduced modulo
`OutputNeurons::COUNT = 5`; the fallback branch returns `Wait` and is
unreachable for a residue < 5. -/
def AndiN.output (a : AndiN) : OutputNeurons :=
  match (a.encoded &&& 0xFF) % 5 with
  | 0 => .MvN
  | 1 => .MvS
  | 2 => .MvW
  | 3 => .MvE
  | _ => .Wait

/-- Model of `impl Nucl for AndiN`: nucleotide-level crossover returns a copy of
its first argument; the derived `Default` is the zero word. -/
instance : Nucl AndiN where
  crossover a _ := a
  dflt := ⟨0⟩

-- -------------------------------------------------------------------------
-- creature.rs: positions and the population
-- -------------------------------------------------------------------------

/-- Model of `Point2`: an integer board position. -/
structure Point2 where
  x : Int
  y : Int
deriving DecidableEq

/-- Model of `NullScorer`: the trivial scorer attached to every `AndiN` genome. -/
structure NullScorer
deriving DecidableEq

instance : Scorer NullScorer where
  score _ := 0

/-- Model of `Creatures<N>`: index-aligned genomes and positions plus the mutation
coefficient. -/
structure Creatures (N : Type) where
  genoms : List (Genom N NullScorer)
  positions : List Point2
  mutationCoeff : Nat
deriving DecidableEq

-- -------------------------------------------------------------------------
-- andis.rs: the per-step behaviour evaluator (AndiN::simulate)
-- -------------------------------------------------------------------------

/-- The queued discrete moves (`enum Action`), each holding the index of
the creature it applies to. -/
inductive Action
  | MoveEast (i : Nat)
  | MoveWest (i : Nat)
  | MoveNorth (i : Nat)
  | MoveSouth (i : Nat)
deriving DecidableEq

/-- The inner locus loop of `AndiN::simulate` for one creature: for every
nucleotide, compute the sensor signal (a fresh rational draw for `Osc`;
`1` when `pos.x < width / 2` for `PL`; `1` when `pos.x >= width / 2` for
`PR`), multiply by the locus weight and add it into the accumulator slot
of the locus actuator.  The accumulator starts at zero for each creature
(the source zeroes the shared vector at the end of every iteration). -/
def evalLoci (pos : Point2) (width : Int) :
    List AndiN → (OutputNeurons → ℚ) → Rng → (OutputNeurons → ℚ) × Rng
  | [], neurons, rng => (neurons, rng)
  | nucl :: rest, neurons, rng =>
    let (signal, rng') :=
      match nucl.input with
      | .Osc =>
        let (q, r) := rng.genRangeQ
        (q * nucl.weight, r)
      | .PL => ((if pos.x < Int.tdiv width 2 then (1 : ℚ) else 0) * nucl.weight, rng)
      | .PR => ((if pos.x ≥ Int.tdiv width 2 then (1 : ℚ) else 0) * nucl.weight, rng)
    evalLoci pos width rest
      (fun o => if o = nucl.output then neurons o + signal else neurons o) rng'

/-- The action-queueing step of `AndiN::simulate` for one creature, after
the saturating nonlinearity: `hor = MvW − MvE`, `ver = MvS − MvN`;
`hor > 0.5` queues `MoveEast`, else `hor < −0.5` queues `MoveWest`;
`ver > 0.5` queues `MoveSouth`, else `hor < −0.5` (the literal source
comparison — against the horizontal intent) queues `MoveNorth`. -/
def actionsFor (i : Nat) (neurons : OutputNeurons → ℚ) : List Action :=
  let hor := neurons .MvW - neurons .MvE
  let ver := neurons .MvS - neurons .MvN
  (if hor > 1/2 then [Action.MoveEast i]
   else if hor < -(1/2) then [Action.MoveWest i] else [])
    ++ (if ver > 1/2 then [Action.MoveSouth i]
        else if hor < -(1/2) then [Action.MoveNorth i] else [])

/-- The creature loop of `AndiN::simulate`: evaluate each (genome,
position) pair in order, threading the rng, applying the nonlinearity
`th` (the `f32::tanh` parameter) to every accumulator slot, and
concatenating the queued actions in program order. -/
def collectActions (th : ℚ → ℚ) (width : Int) :
    List (Genom AndiN NullScorer × Point2) → Nat → Rng → List Action × Rng
  | [], _, rng => ([], rng)
  | (genom, pos) :: rest, i, rng =>
    let (neurons, rng') := evalLoci pos width genom.nucleotides (fun _ => 0) rng
    let acts := actionsFor i (fun o => th (neurons o))
    let (more, rng'') := collectActions th width rest (i + 1) rng'
    (acts ++ more, rng'')

/-- Replace the element at index `i` (out-of-range indices leave the list
unchanged, which never happens on source paths: every queued action holds
a valid creature index). -/
def modifyAt (f : α → α) : List α → Nat → List α
  | [], _ => []
  | x :: xs, 0 => f x :: xs
  | x :: xs, n + 1 => x :: modifyAt f xs n

/-- Apply one queued move: `MoveEast` is `x += 1`, `MoveWest` is `x -= 1`,
`MoveNorth` is `y += 1`, `MoveSouth` is `y -= 1` (the literal source
assignments). -/
def applyAction (ps : List Point2) : Action → List Point2
  | .MoveEast i => modifyAt (fun p => { p with x := p.x + 1 }) ps i
  | .MoveWest i => modifyAt (fun p => { p with x := p.x - 1 }) ps i
  | .MoveNorth i => modifyAt (fun p => { p with y := p.y + 1 }) ps i
  | .MoveSouth i => modifyAt (fun p => { p with y := p.y - 1 }) ps i

/-- The position sanitizer at the end of `AndiN::simulate`: clamp below at
0 on each axis, then clamp above at `width - 1` / `height - 1`. -/
def sanitize (width height : Int) (p : Point2) : Point2 :=
  let x1 := if p.x < 0 then 0 else p.x
  let y1 := if p.y < 0 then 0 else p.y
  ⟨if x1 ≥ width then width - 1 else x1,
   if y1 ≥ height then height - 1 else y1⟩

/-- Model of `AndiN::simulate` (the per-step pass): queue actions for every
creature, apply them all, then sanitize every position.  `th` is the
`f32::tanh` nonlinearity. -/
def AndiN.simulate (th : ℚ → ℚ) (c : Creatures AndiN) (rng : Rng)
    (width height : Int) : Creatures AndiN × Rng :=
  let (acts, rng') := collectActions th width (c.genoms.zip c.positions) 0 rng
  let moved := acts.foldl applyAction c.positions
  ({ c with positions := moved.map (sanitize width height) }, rng')

-- -------------------------------------------------------------------------
-- andis.rs: the generation-end pass (AndiN::simulate_end)
-- -------------------------------------------------------------------------

/-- The selection step of `AndiN::simulate_end`: the genomes whose
creature's position satisfies `pos.x > width / 2`. -/
def parentsOf (c : Creatures AndiN) (width : Int) : List (Genom AndiN NullScorer) :=
  ((c.genoms.zip c.positions).filter fun gp => gp.2.x > Int.tdiv width 2).map Prod.fst

/-- Assign each parent a fresh `next_u32` key, in parent order. -/
def drawKeys : List (Genom AndiN NullScorer) → Rng →
    List (Nat × Genom AndiN NullScorer) × Rng
  | [], rng => ([], rng)
  | g :: gs, rng =>
    let (k, rng') := rng.nextU32
    let (rest, rng'') := drawKeys gs rng'
    ((k, g) :: rest, rng'')

/-- Insert into a key-sorted companion list, keeping an earlier element
before later elements with an equal key (Rust's `sort_by` is stable). -/
def insertByKey (x : Nat × Genom AndiN NullScorer) :
    List (Nat × Genom AndiN NullScorer) → List (Nat × Genom AndiN NullScorer)
  | [] => [x]
  | y :: ys => if x.1 ≤ y.1 then x :: y :: ys else y :: insertByKey x ys

/-- Model of `partner.sort_by(|(a,_),(b,_)| a.cmp(b))`: stable sort of the
companion list by key, ascending. -/
def sortByKey : List (Nat × Genom AndiN NullScorer) →
    List (Nat × Genom AndiN NullScorer)
  | [] => []
  | x :: xs => insertByKey x (sortByKey xs)

/-- The key-redraw loop of a refill pass: `for (x, _) in partner.iter_mut()
{ *x = rng.next_u32(); }` — every key is replaced in list order, the
genomes and their order are untouched, and the list is NOT re-sorted. -/
def redrawKeys : List (Nat × Genom AndiN NullScorer) → Rng →
    List (Nat × Genom AndiN NullScorer) × Rng
  | [], rng => ([], rng)
  | (_, g) :: xs, rng =>
    let (k, rng') := rng.nextU32
    let (rest, rng'') := redrawKeys xs rng'
    ((k, g) :: rest, rng'')

/-- One offspring batch: one `Genom::crossover(first, second, rng)` per
(parent, partner) pair, in order. -/
def offspringBatch (first second : Genom AndiN NullScorer × (Nat × Genom AndiN NullScorer) →
      Genom AndiN NullScorer) (pairs : List (Genom AndiN NullScorer × (Nat × Genom AndiN NullScorer)))
    (rng : Rng) : Option (List (Genom AndiN NullScorer) × Rng) :=
  mapRngO (fun p r => Genom.crossover? (first p) (second p) r) pairs rng

/-- The refill `while new_genoms.len() < n` loop of `AndiN::simulate_end`:
while fewer than `n` offspring exist, redraw every partner key (no
re-sort), generate one batch with the crossover arguments swapped —
`Genom::crossover(partner, parent, rng)` on every pass — and append it.
`fuel` bounds the number of passes; `none` models non-termination. -/
def refillLoop (n : Nat) (parents : List (Genom AndiN NullScorer)) :
    Nat → List (Nat × Genom AndiN NullScorer) → List (Genom AndiN NullScorer) →
    Rng → Option (List (Genom AndiN NullScorer) × Rng)
  | 0, _, cur, rng =>
    if cur.length < n then none else some (cur, rng)
  | fuel + 1, partner, cur, rng =>
    if cur.length < n then
      match offspringBatch (fun p => p.2.2) (fun p => p.1)
          (parents.zip (redrawKeys partner rng).1) (redrawKeys partner rng).2 with
      | none => none
      | some (batch, rng₂) =>
        refillLoop n parents fuel (redrawKeys partner rng).1 (cur ++ batch) rng₂
    else some (cur, rng)

/-- Model of `AndiN::simulate_end`: select the parents, key and sort the partner
companion list, produce the initial batch via
`Genom::crossover(parent, partner, rng)`, run the refill loop until at
least `n` offspring exist, then replace the genome collection with the
first `n` offspring.  (The surviving-parent `println!` is I/O and has no
effect on the state.) -/
def simulateEnd? (fuel : Nat) (c : Creatures AndiN) (rng : Rng) (width : Int) :
    Option (Creatures AndiN × Rng) :=
  match offspringBatch (fun p => p.1) (fun p => p.2.2)
      ((parentsOf c width).zip (sortByKey (drawKeys (parentsOf c width) rng).1))
      (drawKeys (parentsOf c width) rng).2 with
  | none => none
  | some (batch₀, rng₂) =>
    match refillLoop c.genoms.length (parentsOf c width) fuel
        (sortByKey (drawKeys (parentsOf c width) rng).1) batch₀ rng₂ with
    | none => none
    | some (allGenoms, rng₃) =>
      some ({ c with genoms := allGenoms.take c.genoms.length }, rng₃)

/-- Modelled from the spec: the refill loop as claim C3 words it — each
pass redraws every partner key, RE-SORTS the companion list by key, and
ALTERNATES which crossover side is passed first on each refill pass
(`swapped = true` on the first refill pass, toggled every pass). -/
def claimRefillLoop (n : Nat) (parents : List (Genom AndiN NullScorer)) :
    Nat → List (Nat × Genom AndiN NullScorer) → List (Genom AndiN NullScorer) →
    Bool → Rng → Option (List (Genom AndiN NullScorer) × Rng)
  | 0, _, cur, _, rng =>
    if cur.length < n then none else some (cur, rng)
  | fuel + 1, partner, cur, swapped, rng =>
    if cur.length < n then
      match (if swapped then
              offspringBatch (fun p => p.2.2) (fun p => p.1)
                (parents.zip (sortByKey (redrawKeys partner rng).1))
                (redrawKeys partner rng).2
             else
              offspringBatch (fun p => p.1) (fun p => p.2.2)
                (parents.zip (sortByKey (redrawKeys partner rng).1))
                (redrawKeys partner rng).2) with
      | none => none
      | some (batch, rng₂) =>
        claimRefillLoop n parents fuel (sortByKey (redrawKeys partner rng).1)
          (cur ++ batch) (!swapped) rng₂
    else some (cur, rng)

/-- Modelled from the spec: `simulate_end` as claim C3 words its
reproduction step — identical selection, pairing and initial batch, but
with the claimed refill loop (re-sorting and alternating). -/
def claimSimulateEnd? (fuel : Nat) (c : Creatures AndiN) (rng : Rng) (width : Int) :
    Option (Creatures AndiN × Rng) :=
  match offspringBatch (fun p => p.1) (fun p => p.2.2)
      ((parentsOf c width).zip (sortByKey (drawKeys (parentsOf c width) rng).1))
      (drawKeys (parentsOf c width) rng).2 with
  | none => none
  | some (batch₀, rng₂) =>
    match claimRefillLoop c.genoms.length (parentsOf c width) fuel
        (sortByKey (drawKeys (parentsOf c width) rng).1) batch₀ true rng₂ with
    | none => none
    | some (allGenoms, rng₃) =>
      some ({ c with genoms := allGenoms.take c.genoms.length }, rng₃)

-- -------------------------------------------------------------------------
-- world.rs: counters and orchestration
-- -------------------------------------------------------------------------

/-- Model of `World<R, N>`, generic over the creature state `C` so that the counter
protocol is proved for every behaviour evaluator; the `grid` field of the
source is never read or written by the orchestration operations and is
omitted. -/
structure WorldM (C : Type) where
  creatures : C
  rng : Rng
  width : Int
  height : Int
  step : Nat
  generation : Nat
  stepsInGeneration : Nat

/-- Model of `World::simulate`: one per-step pass (`simC`, the `N::simulate` of the
creature kind), `step += 1`; if `step > steps_in_generation`, reset `step`
to 0, increment `generation` and run the generation-end pass (`endC`, the
`N::end_generation`). -/
def WorldM.simulate (simC endC : C → Rng → Int → Int → C × Rng)
    (w : WorldM C) : WorldM C :=
  let s := simC w.creatures w.rng w.width w.height
  if w.step + 1 > w.stepsInGeneration then
    let e := endC s.1 s.2 w.width w.height
    { w with creatures := e.1, rng := e.2, step := 0,
             generation := w.generation + 1 }
  else
    { w with creatures := s.1, rng := s.2, step := w.step + 1 }

/-- The `while self.step < self.steps_in_generation` loop of
`World::simulate_until_endofgeneration`: run the per-step pass and
increment `step` until the bound is reached. -/
def WorldM.untilLoop (simC : C → Rng → Int → Int → C × Rng)
    (w : WorldM C) : WorldM C :=
  if w.step < w.stepsInGeneration then
    WorldM.untilLoop simC
      { w with creatures := (simC w.creatures w.rng w.width w.height).1,
               rng := (simC w.creatures w.rng w.width w.height).2,
               step := w.step + 1 }
  else w
termination_by w.stepsInGeneration - w.step
decreasing_by simp_all; omega

/-- Model of `World::simulate_until_endofgeneration`: run the step loop, then reset
`step` to 0, increment `generation` and run the generation-end pass. -/
def WorldM.untilEnd (simC endC : C → Rng → Int → Int → C × Rng)
    (w : WorldM C) : WorldM C :=
  let w₁ := WorldM.untilLoop simC w
  let e := endC w₁.creatures w₁.rng w₁.width w₁.height
  { w₁ with creatures := e.1, rng := e.2, step := 0,
            generation := w₁.generation + 1 }

/-- The world orchestration operations of claim C7. -/
inductive WOp
  | step
  | untilEnd
  | setSteps (v : Nat)

/-- Apply one orchestration operation. -/
def WorldM.applyOp (simC endC : C → Rng → Int → Int → C × Rng) :
    WOp → WorldM C → WorldM C
  | .step, w => WorldM.simulate simC endC w
  | .untilEnd, w => WorldM.untilEnd simC endC w
  | .setSteps v, w => { w with stepsInGeneration := v }

/-- Apply a sequence of orchestration operations, first to last. -/
def WorldM.run (simC endC : C → Rng → Int → Int → C × Rng)
    (ops : List WOp) (w : WorldM C) : WorldM C :=
  ops.foldl (fun w op => WorldM.applyOp simC endC op w) w

-- -------------------------------------------------------------------------
-- Concrete fixtures used by witnesses and counterexamples
-- -------------------------------------------------------------------------

/-- A concrete random source whose raw draws are all zero. -/
def rngZero : Rng := ⟨fun _ => 0, fun _ => 0, 0⟩

/-- A concrete three-locus genome. -/
def gThree : Genom AndiN NullScorer := ⟨[⟨1⟩, ⟨2⟩, ⟨3⟩], none⟩

/-- A concrete one-locus genome. -/
def gOne : Genom AndiN NullScorer := ⟨[⟨1⟩], none⟩

/-- A concrete empty genome. -/
def gNil : Genom AndiN NullScorer := ⟨[], none⟩

/-- A concrete two-locus genome. -/
def gTwoA : Genom AndiN NullScorer := ⟨[⟨11⟩, ⟨12⟩], none⟩

/-- Another concrete two-locus genome. -/
def gTwoB : Genom AndiN NullScorer := ⟨[⟨21⟩, ⟨22⟩], none⟩

/-- A reusable child buffer with junk prior contents (three stale
nucleotides and a stale scorer). -/
def gJunk : Genom AndiN NullScorer := ⟨[⟨9⟩, ⟨9⟩, ⟨9⟩], some ⟨⟩⟩

-- -------------------------------------------------------------------------
-- C4: codec totality
-- -------------------------------------------------------------------------

/-- C4: for every 32-bit word `w`, decoding is total: the sensor is a
member of the enumerated sensor vocabulary (top 8 bits mod 3), the
actuator is a member of the enumerated actuator vocabulary (bottom 8 bits
mod 5), and the weight lies in `[0, 1)` and equals the middle-16-bit
numerator divided by 65536. -/
theorem codec_totality (w : Nat) (hw : w < 2 ^ 32) :
    (0 ≤ (AndiN.decode w).weight ∧ (AndiN.decode w).weight < 1 ∧
      (AndiN.decode w).weight = (((w >>> 8) &&& 0xFFFF : Nat) : ℚ) / 65536) ∧
    ((AndiN.decode w).input = .PR ∨ (AndiN.decode w).input = .PL ∨
      (AndiN.decode w).input = .Osc) ∧
    ((AndiN.decode w).output = .MvN ∨ (AndiN.decode w).output = .MvS ∨
      (AndiN.decode w).output = .MvW ∨ (AndiN.decode w).output = .MvE ∨
      (AndiN.decode w).output = .Wait) := by
  refine ⟨⟨?_, ?_, rfl⟩, ?_, ?_⟩
  · unfold AndiN.weight
    positivity
  · unfold AndiN.weight AndiN.decode
    rw [div_lt_one (by norm_num)]
    have h : ((w >>> 8) &&& 0xFFFF) ≤ 0xFFFF := Nat.and_le_right
    exact lt_of_le_of_lt (by exact_mod_cast Nat.cast_le.mpr h) (by norm_num)
  · have h3 : ((w >>> 24) % 256) % 3 < 3 := Nat.mod_lt _ (by norm_num)
    unfold AndiN.input AndiN.decode
    rcases (by omega : ((w >>> 24) % 256) % 3 = 0 ∨ ((w >>> 24) % 256) % 3 = 1 ∨
        ((w >>> 24) % 256) % 3 = 2) with h | h | h <;> simp [h]
  · have h5 : (w &&& 0xFF) % 5 < 5 := Nat.mod_lt _ (by norm_num)
    unfold AndiN.output AndiN.decode
    rcases (by omega : (w &&& 0xFF) % 5 = 0 ∨ (w &&& 0xFF) % 5 = 1 ∨
        (w &&& 0xFF) % 5 = 2 ∨ (w &&& 0xFF) % 5 = 3 ∨ (w &&& 0xFF) % 5 = 4)
      with h | h | h | h | h <;> simp [h]

/-- Witness for C4 at the concrete word 0xDEADBEEF. -/
theorem codec_totality_witness :
    (0xDEADBEEF : Nat) < 2 ^ 32 ∧
    ((0 ≤ (AndiN.decode 0xDEADBEEF).weight ∧ (AndiN.decode 0xDEADBEEF).weight < 1 ∧
      (AndiN.decode 0xDEADBEEF).weight =
        (((0xDEADBEEF >>> 8) &&& 0xFFFF : Nat) : ℚ) / 65536) ∧
    ((AndiN.decode 0xDEADBEEF).input = .PR ∨ (AndiN.decode 0xDEADBEEF).input = .PL ∨
      (AndiN.decode 0xDEADBEEF).input = .Osc) ∧
    ((AndiN.decode 0xDEADBEEF).output = .MvN ∨ (AndiN.decode 0xDEADBEEF).output = .MvS ∨
      (AndiN.decode 0xDEADBEEF).output = .MvW ∨ (AndiN.decode 0xDEADBEEF).output = .MvE ∨
      (AndiN.decode 0xDEADBEEF).output = .Wait)) :=
  ⟨by norm_num, codec_totality 0xDEADBEEF (by norm_num)⟩

-- -------------------------------------------------------------------------
-- C5: no fail-fast on mismatched genome lengths (code bug)
-- -------------------------------------------------------------------------

/-- C5 (code bug evidence): at the concrete unequal-length parents
`gOne` (length 1) and `gNil` (length 0), every two-parent genetic
operator proceeds and produces a result (`isSome`) instead of failing
fast; `crossover` silently yields a zero-length child. -/
theorem unequal_lengths_proceed :
    gOne.nucleotides.length ≠ gNil.nucleotides.length ∧
    (Genom.crossover? gOne gNil rngZero).isSome = true ∧
    (Genom.crossoverCut? gOne gNil rngZero).isSome = true ∧
    (Genom.crossoverMut? gOne gNil gJunk rngZero).isSome = true ∧
    (Genom.crossover? gOne gNil rngZero).map (fun p => p.1.nucleotides.length) =
      some 0 := by decide

-- -------------------------------------------------------------------------
-- C6: crossover_mut is bit-identical to crossover
-- -------------------------------------------------------------------------

/-- C6: for equal-length parents and the same random draws, the
into-buffer crossover leaves the child holding a nucleotide sequence
identical to the one returned by the allocating crossover, regardless of
the buffer's prior contents. -/
theorem crossoverMut_matches_crossover (N S : Type) [Nucl N]
    (a b child : Genom N S) (rng : Rng)
    (h : a.nucleotides.length = b.nucleotides.length) :
    (Genom.crossoverMut? a b child rng).map (fun p => p.1.nucleotides) =
      (Genom.crossover? a b rng).map (fun p => p.1.nucleotides) := by
  unfold Genom.crossoverMut? Genom.crossover?
  by_cases h0 : a.nucleotides.length = 0 <;> simp [h0]

/-- Witness for C6 at concrete equal-length parents and a junk-filled
child buffer. -/
theorem crossoverMut_matches_crossover_witness :
    (Genom.crossoverMut? gTwoA gTwoB gJunk rngZero).map (fun p => p.1.nucleotides) =
      (Genom.crossover? gTwoA gTwoB rngZero).map (fun p => p.1.nucleotides) :=
  crossoverMut_matches_crossover AndiN NullScorer gTwoA gTwoB gJunk rngZero (by decide)

-- -------------------------------------------------------------------------
-- C9: cut
-- -------------------------------------------------------------------------

/-- Pushing `n` defaults one by one is appending `n` replicated
defaults. -/
theorem foldl_push_replicate (d : α) :
    ∀ (n : Nat) (acc : List α),
      (List.range n).foldl (fun acc _ => acc ++ [d]) acc = acc ++ List.replicate n d := by
  intro n
  induction n with
  | zero => intro acc; simp
  | succ n ih =>
    intro acc
    rw [List.range_succ, List.foldl_append, ih]
    simp [List.replicate_succ']

/-- C9 counterexample: `cut` on a one-locus genome with `len = 2` yields a
genome of length 2, not the original length 1 — the claim's unconditional
length preservation is false. -/
theorem cut_length_counterexample :
    (Genom.cut gOne 2).nucleotides.length = 2 ∧
    gOne.nucleotides.length = 1 ∧ (2 : Nat) ≠ 1 := by decide

/-- C9 amended: `cut(genome, len)` produces the loci from index `len`
onward followed by `len` default units, and preserves the genome length
whenever `len` does not exceed it. -/
theorem cut_drop_pad (N S : Type) [Nucl N] (g : Genom N S) (len : Nat) :
    (Genom.cut g len).nucleotides =
      g.nucleotides.drop len ++ List.replicate len Nucl.dflt ∧
    (len ≤ g.nucleotides.length →
      (Genom.cut g len).nucleotides.length = g.nucleotides.length) := by
  have hstr : (Genom.cut g len).nucleotides =
      g.nucleotides.drop len ++ List.replicate len Nucl.dflt := by
    unfold Genom.cut
    exact foldl_push_replicate _ len _
  refine ⟨hstr, fun hle => ?_⟩
  rw [hstr]
  simp [List.length_drop]
  omega

/-- Witness for C9 amended at a three-locus genome and `len = 1`. -/
theorem cut_drop_pad_witness :
    (Genom.cut gThree 1).nucleotides =
      gThree.nucleotides.drop 1 ++ List.replicate 1 Nucl.dflt ∧
    (Genom.cut gThree 1).nucleotides.length = gThree.nucleotides.length :=
  ⟨(cut_drop_pad AndiN NullScorer gThree 1).1,
   (cut_drop_pad AndiN NullScorer gThree 1).2 (by decide)⟩

-- -------------------------------------------------------------------------
-- C10: crossover and crossover_cut coincide for AndiN
-- -------------------------------------------------------------------------

/-- For the AndiN nucleotide (whose crossover copies its first argument),
the shared offspring computation is the first parent's prefix followed by
the second parent's suffix, for equal-length parents. -/
theorem crossoverCore_andin (a b : List AndiN) (k : Nat)
    (h : a.length = b.length) :
    Genom.crossoverCore a b k = a.take k ++ b.drop k := by
  show ((a.zip b).take k).map Prod.fst ++ ((a.zip b).drop k).map Prod.snd =
    a.take k ++ b.drop k
  rw [List.map_take, List.map_drop, List.map_fst_zip a b (le_of_eq h),
    List.map_snd_zip a b (le_of_eq h.symm)]

/-- C10: for equal-length AndiN parents, `crossover` and `crossover_cut`
produce the same nucleotide sequence — the first parent's prefix `[0,k)`
followed by the second parent's suffix `[k,..)` — for every cut index `k`
and in particular for the same cut-index draw. -/
theorem crossover_eq_crossoverCut (a b : Genom AndiN NullScorer) (rng : Rng)
    (h : a.nucleotides.length = b.nucleotides.length) :
    (∀ k, Genom.crossoverCore a.nucleotides b.nucleotides k =
        a.nucleotides.take k ++ b.nucleotides.drop k) ∧
    (Genom.crossover? a b rng).map (fun p => p.1.nucleotides) =
      (Genom.crossoverCut? a b rng).map (fun p => p.1.nucleotides) := by
  refine ⟨fun k => crossoverCore_andin _ _ _ h, ?_⟩
  unfold Genom.crossover? Genom.crossoverCut?
  by_cases h0 : a.nucleotides.length = 0 <;>
    simp [h0, crossoverCore_andin _ _ _ h]

/-- Witness for C10 at concrete equal-length parents. -/
theorem crossover_eq_crossoverCut_witness :
    (Genom.crossover? gTwoA gTwoB rngZero).map (fun p => p.1.nucleotides) =
      (Genom.crossoverCut? gTwoA gTwoB rngZero).map (fun p => p.1.nucleotides) :=
  (crossover_eq_crossoverCut gTwoA gTwoB rngZero (by decide)).2

-- -------------------------------------------------------------------------
-- C8: position bounds after a per-step pass
-- -------------------------------------------------------------------------

/-- The position sanitizer clamps every point into the board whenever the
board has positive extent. -/
theorem sanitize_bounds (width height : Int) (hw : 0 < width) (hh : 0 < height)
    (p : Point2) :
    0 ≤ (sanitize width height p).x ∧ (sanitize width height p).x < width ∧
    0 ≤ (sanitize width height p).y ∧ (sanitize width height p).y < height := by
  unfold sanitize
  dsimp only
  split_ifs <;> omega

/-- C8: after any per-step pass on a board of positive extent, every
creature position satisfies `0 ≤ x < width` and `0 ≤ y < height`,
whatever the nonlinearity, the random draws and the prior state. -/
theorem position_bounds (th : ℚ → ℚ) (c : Creatures AndiN) (rng : Rng)
    (width height : Int) (hw : 0 < width) (hh : 0 < height) (p : Point2)
    (hp : p ∈ (AndiN.simulate th c rng width height).1.positions) :
    0 ≤ p.x ∧ p.x < width ∧ 0 ≤ p.y ∧ p.y < height := by
  unfold AndiN.simulate at hp
  simp only [List.mem_map] at hp
  obtain ⟨q, -, rfl⟩ := hp
  exact sanitize_bounds width height hw hh q

/-- A concrete single-creature population used by the C8 witness (the
genome is empty, so the step pass queues no actions). -/
def cBounds : Creatures AndiN := ⟨[⟨[], none⟩], [⟨3, 4⟩], 100⟩

/-- Evaluation of the per-step pass on `cBounds` under the zero
nonlinearity: the empty genome queues nothing, and sanitizing keeps the
creature at (3, 4). -/
theorem cBounds_positions :
    (AndiN.simulate (fun _ => 0) cBounds rngZero 10 10).1.positions =
      [⟨3, 4⟩] := by
  have hact0 : collectActions (fun _ => 0) 10
      [((⟨[], none⟩ : Genom AndiN NullScorer), (⟨3, 4⟩ : Point2))] 0 rngZero =
      ([], rngZero) := by
    rw [collectActions]
    dsimp only
    rw [collectActions]
    unfold actionsFor
    dsimp only
    have c3 : ¬((0:ℚ) - 0 > 1/2) := by norm_num
    have c4 : ¬((0:ℚ) - 0 < -(1/2)) := by norm_num
    simp only [evalLoci, c3, c4, if_false]
    rfl
  have hz0 : (([⟨[], none⟩] : List (Genom AndiN NullScorer)).zip
      ([⟨3, 4⟩] : List Point2)) =
      [((⟨[], none⟩ : Genom AndiN NullScorer), (⟨3, 4⟩ : Point2))] := rfl
  show (AndiN.simulate (fun _ => 0)
      ⟨[⟨[], none⟩], [⟨3, 4⟩], 100⟩ rngZero 10 10).1.positions = [⟨3, 4⟩]
  unfold AndiN.simulate
  dsimp only
  rw [hz0, hact0]
  simp only [List.foldl, List.map, sanitize]
  norm_num

/-- Witness for C8: the concrete post-step position of `cBounds` is in
bounds on the concrete 10 × 10 board. -/
theorem position_bounds_witness :
    0 ≤ (Point2.mk 3 4).x ∧ (Point2.mk 3 4).x < 10 ∧
    0 ≤ (Point2.mk 3 4).y ∧ (Point2.mk 3 4).y < 10 :=
  position_bounds (fun _ => 0) cBounds rngZero 10 10 (by norm_num) (by norm_num)
    ⟨3, 4⟩ (by rw [cBounds_positions]; simp)

-- -------------------------------------------------------------------------
-- C2: zero surviving parents — the generation-end pass diverges
-- -------------------------------------------------------------------------

/-- With no parents, a refill pass appends an empty batch, so the refill
loop never reaches `n` offspring: it runs out of any amount of fuel
(models the source's infinite `while new_genoms.len() < n` loop). -/
theorem refillLoop_empty_parents (n : Nat) :
    ∀ (fuel : Nat) (partner : List (Nat × Genom AndiN NullScorer))
      (cur : List (Genom AndiN NullScorer)) (rng : Rng),
      cur.length < n → refillLoop n [] fuel partner cur rng = none := by
  intro fuel
  induction fuel with
  | zero =>
    intro partner cur rng h
    simp [refillLoop, h]
  | succ f ih =>
    intro partner cur rng h
    simp only [refillLoop, h, if_pos]
    have hb : offspringBatch
        (fun p : Genom AndiN NullScorer × Nat × Genom AndiN NullScorer => p.2.2)
        (fun p : Genom AndiN NullScorer × Nat × Genom AndiN NullScorer => p.1)
        (([] : List (Genom AndiN NullScorer)).zip (redrawKeys partner rng).1)
        (redrawKeys partner rng).2 =
        some ([], (redrawKeys partner rng).2) := rfl
    rw [hb]
    dsimp only
    simp only [List.append_nil]
    exact ih _ _ _ h

/-- C2 (code bug evidence): whenever no creature sits strictly right of
`width / 2` and the population is nonempty, the generation-end pass never
terminates — it returns `none` for every amount of fuel, so there is no
defined fallback result. -/
theorem simulateEnd_zero_parents_diverges (c : Creatures AndiN) (rng : Rng)
    (width : Int) (fuel : Nat) (hp : parentsOf c width = [])
    (hn : 0 < c.genoms.length) :
    simulateEnd? fuel c rng width = none := by
  unfold simulateEnd?
  rw [hp]
  have hb : offspringBatch
      (fun p : Genom AndiN NullScorer × Nat × Genom AndiN NullScorer => p.1)
      (fun p : Genom AndiN NullScorer × Nat × Genom AndiN NullScorer => p.2.2)
      (([] : List (Genom AndiN NullScorer)).zip
        (sortByKey (drawKeys [] rng).1))
      (drawKeys [] rng).2 =
      some ([], (drawKeys [] rng).2) := rfl
  rw [hb]
  dsimp only
  rw [refillLoop_empty_parents c.genoms.length fuel _ [] _ (by simpa using hn)]

/-- A concrete one-creature population with its creature in the left half
of the 10-wide board: zero surviving parents. -/
def cNoParents : Creatures AndiN := ⟨[⟨[⟨7⟩], none⟩], [⟨0, 0⟩], 100⟩

/-- Witness for C2: on the concrete zero-parent population, the
generation-end pass exhausts the concrete fuel 5 without producing a
result. -/
theorem simulateEnd_zero_parents_diverges_witness :
    simulateEnd? 5 cNoParents rngZero 10 = none :=
  simulateEnd_zero_parents_diverges cNoParents rngZero 10 5 (by decide) (by decide)

-- -------------------------------------------------------------------------
-- C7: the counter protocol
-- -------------------------------------------------------------------------

/-- The step loop of the run-to-generation-end operation never touches the
generation counter or the configured generation length. -/
theorem untilLoop_counters (simC : C → Rng → Int → Int → C × Rng) :
    ∀ w : WorldM C,
      (WorldM.untilLoop simC w).generation = w.generation ∧
      (WorldM.untilLoop simC w).stepsInGeneration = w.stepsInGeneration := by
  suffices H : ∀ (n : Nat) (w : WorldM C), w.stepsInGeneration - w.step ≤ n →
      (WorldM.untilLoop simC w).generation = w.generation ∧
      (WorldM.untilLoop simC w).stepsInGeneration = w.stepsInGeneration by
    exact fun w => H _ w le_rfl
  intro n
  induction n with
  | zero =>
    intro w h
    rw [WorldM.untilLoop]
    have hc : ¬ w.step < w.stepsInGeneration := by omega
    simp [hc]
  | succ n ih =>
    intro w h
    rw [WorldM.untilLoop]
    by_cases hc : w.step < w.stepsInGeneration
    · simp only [hc, if_pos]
      exact ih _ (by simp; omega)
    · simp [hc]

/-- C7: along every orchestration operation the generation counter never
decreases, any generation increment leaves the step counter at 0, and a
transition that does not increment the generation either leaves the step
counter unchanged (`set_steps_in_generation`) or advances it by one
(a non-boundary per-step pass) — it never resets it; consequently the
generation counter is monotone along every operation sequence. -/
theorem counter_protocol (C : Type) (simC endC : C → Rng → Int → Int → C × Rng) :
    (∀ (op : WOp) (w : WorldM C),
        w.generation ≤ (WorldM.applyOp simC endC op w).generation ∧
        (w.generation < (WorldM.applyOp simC endC op w).generation →
          (WorldM.applyOp simC endC op w).step = 0) ∧
        ((WorldM.applyOp simC endC op w).generation = w.generation →
          (WorldM.applyOp simC endC op w).step = w.step ∨
          (WorldM.applyOp simC endC op w).step = w.step + 1)) ∧
    (∀ (ops : List WOp) (w : WorldM C),
        w.generation ≤ (WorldM.run simC endC ops w).generation) := by
  have hop : ∀ (op : WOp) (w : WorldM C),
      w.generation ≤ (WorldM.applyOp simC endC op w).generation ∧
      (w.generation < (WorldM.applyOp simC endC op w).generation →
        (WorldM.applyOp simC endC op w).step = 0) ∧
      ((WorldM.applyOp simC endC op w).generation = w.generation →
        (WorldM.applyOp simC endC op w).step = w.step ∨
        (WorldM.applyOp simC endC op w).step = w.step + 1) := by
    intro op w
    cases op with
    | step =>
      unfold WorldM.applyOp WorldM.simulate
      by_cases hc : w.step + 1 > w.stepsInGeneration <;> simp [hc]
    | untilEnd =>
      unfold WorldM.applyOp WorldM.untilEnd
      have hg := (untilLoop_counters simC w).1
      simp [hg]
    | setSteps v =>
      unfold WorldM.applyOp
      simp
  refine ⟨hop, ?_⟩
  intro ops
  induction ops with
  | nil =>
    intro w
    simp [WorldM.run]
  | cons op rest ih =>
    intro w
    have h1 := (hop op w).1
    have h2 := ih (WorldM.applyOp simC endC op w)
    have hrun : WorldM.run simC endC (op :: rest) w =
        WorldM.run simC endC rest (WorldM.applyOp simC endC op w) := rfl
    rw [hrun]
    exact le_trans h1 h2

/-- A concrete world over a trivial creature state, used by the C7
witness. -/
def worldW : WorldM Unit := ⟨(), rngZero, 10, 10, 0, 0, 3⟩

/-- A trivial behaviour evaluator for the C7 witness. -/
def trivEval : Unit → Rng → Int → Int → Unit × Rng := fun _ r _ _ => ((), r)

/-- Witness for C7: the per-transition counter protocol at a concrete
world and a concrete per-step operation. -/
theorem counter_protocol_witness :
    worldW.generation ≤ (WorldM.applyOp trivEval trivEval WOp.step worldW).generation ∧
    (worldW.generation < (WorldM.applyOp trivEval trivEval WOp.step worldW).generation →
      (WorldM.applyOp trivEval trivEval WOp.step worldW).step = 0) ∧
    ((WorldM.applyOp trivEval trivEval WOp.step worldW).generation = worldW.generation →
      (WorldM.applyOp trivEval trivEval WOp.step worldW).step = worldW.step ∨
      (WorldM.applyOp trivEval trivEval WOp.step worldW).step = worldW.step + 1) :=
  (counter_protocol Unit trivEval trivEval).1 WOp.step worldW

-- -------------------------------------------------------------------------
-- C3: the refill loop of the generation-end pass
-- -------------------------------------------------------------------------

/-- One of two concrete surviving parents for the C3 scenarios. -/
def gPa : Genom AndiN NullScorer := ⟨[⟨10⟩], none⟩

/-- The other concrete surviving parent. -/
def gPb : Genom AndiN NullScorer := ⟨[⟨20⟩], none⟩

/-- A concrete non-surviving genome. -/
def gOther : Genom AndiN NullScorer := ⟨[⟨0⟩], none⟩

/-- A concrete five-creature population of which exactly the first two
creatures sit strictly right of `width / 2` on the 10-wide board, so two
parents must refill to five offspring (two refill passes). -/
def cRefill : Creatures AndiN :=
  ⟨[gPa, gPb, gOther, gOther, gOther],
   [⟨9, 0⟩, ⟨9, 0⟩, ⟨0, 0⟩, ⟨0, 0⟩, ⟨0, 0⟩], 100⟩

/-- A concrete random stream for the C3 counterexample: the two initial
keys (100, 50) reverse the partner order under the initial sort, and every
redrawn key pair (10, 20) is already sorted, so re-sorting would change
nothing — the only behavioural difference left between the code and the
claim is the alternation of the crossover sides. -/
def rngRefill : Rng :=
  ⟨fun i => [100, 50, 0, 0, 10, 20, 0, 0, 10, 20, 0, 0].getD i 0, fun _ => 0, 0⟩

/-- C3 counterexample: at the concrete population `cRefill` and stream
`rngRefill`, the generation-end pass of the code produces a different
offspring collection than the claim's refill procedure (re-sort each pass,
alternate the crossover sides): they disagree on the fifth offspring,
which the second refill pass produces with swapped sides in the code but
with restored sides under the claimed alternation. -/
theorem refill_claim_counterexample :
    (simulateEnd? 6 cRefill rngRefill 10).map (fun p => p.1.genoms) ≠
      (claimSimulateEnd? 6 cRefill rngRefill 10).map (fun p => p.1.genoms) := by
  decide

/-- Redrawing keys preserves the length of the companion list. -/
theorem redrawKeys_length (l : List (Nat × Genom AndiN NullScorer)) (r : Rng) :
    (redrawKeys l r).1.length = l.length := by
  induction l generalizing r with
  | nil => rfl
  | cons x xs ih => simp [redrawKeys, ih]

/-- Redrawing keys preserves the genomes and their order. -/
theorem redrawKeys_snd (l : List (Nat × Genom AndiN NullScorer)) (r : Rng) :
    (redrawKeys l r).1.map Prod.snd = l.map Prod.snd := by
  induction l generalizing r with
  | nil => rfl
  | cons x xs ih => simp [redrawKeys, ih]

/-- Drawing initial keys preserves the length. -/
theorem drawKeys_length (l : List (Genom AndiN NullScorer)) (r : Rng) :
    (drawKeys l r).1.length = l.length := by
  induction l generalizing r with
  | nil => rfl
  | cons x xs ih => simp [drawKeys, ih]

/-- The companioned genomes after the initial key draw are exactly the
parents, in order. -/
theorem drawKeys_snd (l : List (Genom AndiN NullScorer)) (r : Rng) :
    (drawKeys l r).1.map Prod.snd = l := by
  induction l generalizing r with
  | nil => rfl
  | cons x xs ih => simp [drawKeys, ih]

/-- Insertion into the sorted companion list adds one element. -/
theorem insertByKey_length (x : Nat × Genom AndiN NullScorer)
    (l : List (Nat × Genom AndiN NullScorer)) :
    (insertByKey x l).length = l.length + 1 := by
  induction l with
  | nil => rfl
  | cons y ys ih =>
    unfold insertByKey
    by_cases hc : x.1 ≤ y.1 <;> simp [hc, ih]

/-- Members after insertion come from the inserted element or the list. -/
theorem insertByKey_mem (x y : Nat × Genom AndiN NullScorer)
    (l : List (Nat × Genom AndiN NullScorer)) (h : y ∈ insertByKey x l) :
    y = x ∨ y ∈ l := by
  induction l with
  | nil =>
    unfold insertByKey at h
    simp at h
    exact Or.inl h
  | cons z zs ih =>
    unfold insertByKey at h
    by_cases hc : x.1 ≤ z.1
    · simp [hc] at h
      rcases h with h | h | h
      · exact Or.inl h
      · exact Or.inr (by simp [h])
      · exact Or.inr (by simp [h])
    · simp [hc] at h
      rcases h with h | h
      · exact Or.inr (by simp [h])
      · rcases ih h with h' | h'
        · exact Or.inl h'
        · exact Or.inr (by simp [h'])

/-- Sorting the companion list preserves its length. -/
theorem sortByKey_length (l : List (Nat × Genom AndiN NullScorer)) :
    (sortByKey l).length = l.length := by
  induction l with
  | nil => rfl
  | cons x xs ih => simp [sortByKey, insertByKey_length, ih]

/-- Members of the sorted companion list are members of the original. -/
theorem sortByKey_mem (y : Nat × Genom AndiN NullScorer)
    (l : List (Nat × Genom AndiN NullScorer)) (h : y ∈ sortByKey l) : y ∈ l := by
  induction l with
  | nil => simpa [sortByKey] using h
  | cons x xs ih =>
    unfold sortByKey at h
    rcases insertByKey_mem x y _ h with h' | h'
    · simp [h']
    · simp [ih h']

/-- Crossover succeeds whenever the first parent is nonempty. -/
theorem crossover_some (a b : Genom AndiN NullScorer) (r : Rng)
    (h : a.nucleotides ≠ []) :
    ∃ g r', Genom.crossover? a b r = some (g, r') := by
  unfold Genom.crossover?
  rw [if_neg (by simpa [List.length_eq_zero] using h)]
  exact ⟨_, _, rfl⟩

/-- Threading a never-failing rng-consuming function over a list succeeds
and produces one output per input. -/
theorem mapRngO_some (f : α → Rng → Option (β × Rng)) (l : List α)
    (h : ∀ x ∈ l, ∀ r : Rng, ∃ y r', f x r = some (y, r')) :
    ∀ r : Rng, ∃ ys r', mapRngO f l r = some (ys, r') ∧ ys.length = l.length := by
  induction l with
  | nil => exact fun r => ⟨[], r, rfl, rfl⟩
  | cons x xs ih =>
    intro r
    obtain ⟨y, r', hy⟩ := h x (by simp) r
    obtain ⟨ys, r'', hys, hlen⟩ := ih (fun z hz => h z (by simp [hz])) r'
    refine ⟨y :: ys, r'', ?_, by simp [hlen]⟩
    unfold mapRngO
    rw [hy]
    dsimp only
    rw [hys]

/-- With at least one parent whose genome is nonempty (and partners drawn
from the parents), every refill pass adds `parents.length ≥ 1` offspring,
so the refill loop terminates with at least `n` offspring given fuel at
least `n`. -/
theorem refillLoop_reaches (n : Nat) (parents : List (Genom AndiN NullScorer))
    (hp1 : 0 < parents.length) :
    ∀ (fuel : Nat) (partner : List (Nat × Genom AndiN NullScorer))
      (cur : List (Genom AndiN NullScorer)) (rng : Rng),
      partner.length = parents.length →
      (∀ kg ∈ partner, kg.2.nucleotides ≠ []) →
      n ≤ cur.length + fuel * parents.length →
      ∃ out rng', refillLoop n parents fuel partner cur rng = some (out, rng') ∧
        n ≤ out.length := by
  intro fuel
  induction fuel with
  | zero =>
    intro partner cur rng _ _ hbound
    have hc : ¬ cur.length < n := by omega
    exact ⟨cur, rng, by simp [refillLoop, hc], by omega⟩
  | succ f ih =>
    intro partner cur rng hplen hpne hbound
    by_cases hc : cur.length < n
    · have hlen' : (redrawKeys partner rng).1.length = parents.length := by
        rw [redrawKeys_length, hplen]
      have hne' : ∀ kg ∈ (redrawKeys partner rng).1, kg.2.nucleotides ≠ [] := by
        intro kg hkg
        have h1 : kg.2 ∈ (redrawKeys partner rng).1.map Prod.snd :=
          List.mem_map_of_mem _ hkg
        rw [redrawKeys_snd] at h1
        obtain ⟨kg', hkg', hs⟩ := List.mem_map.mp h1
        rw [← hs]
        exact hpne kg' hkg'
      obtain ⟨batch, rng₂, hbatch, hblen⟩ :=
        mapRngO_some (fun p r => Genom.crossover? p.2.2 p.1 r)
          (parents.zip (redrawKeys partner rng).1)
          (fun p hp' r => crossover_some _ _ r
            (hne' _ (List.of_mem_zip hp').2))
          (redrawKeys partner rng).2
      have hbatch' : offspringBatch (fun p => p.2.2) (fun p => p.1)
          (parents.zip (redrawKeys partner rng).1) (redrawKeys partner rng).2 =
          some (batch, rng₂) := hbatch
      have hzlen : (parents.zip (redrawKeys partner rng).1).length =
          parents.length := by
        rw [List.length_zip, hlen', min_self]
      obtain ⟨out, rng₃, hloop, houtlen⟩ :=
        ih (redrawKeys partner rng).1 (cur ++ batch) rng₂ hlen' hne'
          (by
            rw [Nat.succ_mul] at hbound
            rw [List.length_append, hblen, hzlen]
            omega)
      refine ⟨out, rng₃, ?_, houtlen⟩
      simp only [refillLoop, hc, if_pos]
      rw [hbatch']
      exact hloop
    · exact ⟨cur, rng, by simp [refillLoop, hc], by omega⟩

/-- C3 amended: whenever at least one parent survives (all with nonempty
genomes), the generation-end pass terminates — each refill pass redraws
every partner key (without re-sorting the companion list) and generates a
batch with the crossover sides swapped relative to the initial batch on
every pass — and the new genome collection has exactly the population
size. -/
theorem refill_terminates_exact (c : Creatures AndiN) (rng : Rng) (width : Int)
    (hp : parentsOf c width ≠ [])
    (hne : ∀ g ∈ parentsOf c width, g.nucleotides ≠ []) :
    ∃ c' rng', simulateEnd? c.genoms.length c rng width = some (c', rng') ∧
      c'.genoms.length = c.genoms.length := by
  have hp1 : 0 < (parentsOf c width).length := List.length_pos.mpr hp
  have hplen : (sortByKey (drawKeys (parentsOf c width) rng).1).length =
      (parentsOf c width).length := by
    rw [sortByKey_length, drawKeys_length]
  have hpsnd : ∀ kg ∈ sortByKey (drawKeys (parentsOf c width) rng).1,
      kg.2.nucleotides ≠ [] := by
    intro kg hkg
    have h1 : kg ∈ (drawKeys (parentsOf c width) rng).1 := sortByKey_mem _ _ hkg
    have h2 : kg.2 ∈ (drawKeys (parentsOf c width) rng).1.map Prod.snd :=
      List.mem_map_of_mem _ h1
    rw [drawKeys_snd] at h2
    exact hne _ h2
  obtain ⟨batch₀, rng₂, hb0, hb0len⟩ :=
    mapRngO_some (fun p r => Genom.crossover? p.1 p.2.2 r)
      ((parentsOf c width).zip (sortByKey (drawKeys (parentsOf c width) rng).1))
      (fun p hp' r => crossover_some _ _ r (hne _ (List.of_mem_zip hp').1))
      ((drawKeys (parentsOf c width) rng).2)
  have hb0' : offspringBatch (fun p => p.1) (fun p => p.2.2)
      ((parentsOf c width).zip (sortByKey (drawKeys (parentsOf c width) rng).1))
      ((drawKeys (parentsOf c width) rng).2) = some (batch₀, rng₂) := hb0
  have hzlen : ((parentsOf c width).zip
      (sortByKey (drawKeys (parentsOf c width) rng).1)).length =
      (parentsOf c width).length := by
    rw [List.length_zip, hplen, min_self]
  have hmul : c.genoms.length ≤ c.genoms.length * (parentsOf c width).length :=
    Nat.le_mul_of_pos_right _ hp1
  obtain ⟨out, rng₃, hloop, houtlen⟩ :=
    refillLoop_reaches c.genoms.length (parentsOf c width) hp1 c.genoms.length
      (sortByKey (drawKeys (parentsOf c width) rng).1) batch₀ rng₂ hplen hpsnd
      (by rw [hb0len, hzlen]; exact le_trans hmul (Nat.le_add_left _ _))
  refine ⟨{ c with genoms := out.take c.genoms.length }, rng₃, ?_, ?_⟩
  · unfold simulateEnd?
    rw [hb0']
    dsimp only
    rw [hloop]
  · simp [List.length_take]
    omega

/-- Witness for C3 amended at the concrete two-parent, five-creature
population: the pass terminates with exactly five offspring. -/
theorem refill_terminates_exact_witness :
    (simulateEnd? cRefill.genoms.length cRefill rngRefill 10).map
        (fun p => p.1.genoms.length) = some cRefill.genoms.length := by
  obtain ⟨c', rng', heq, hlen⟩ :=
    refill_terminates_exact cRefill rngRefill 10 (by decide) (by decide)
  rw [heq]
  simp [hlen]

-- -------------------------------------------------------------------------
-- C1: scenario B (left-half sensor wired to move-east)
-- -------------------------------------------------------------------------

/-- C1 amended: with a single locus wired to the left-half sensor and the
move-east actuator, a weight whose tanh exceeds the 0.5 threshold, and a
creature with `0 ≤ x < width / 2`, one per-step pass DECREASES the
creature's x-coordinate by exactly 1, clamped below at 0: the source
computes the horizontal intent as `MvW − MvE`, which is below −0.5 here,
and that branch queues `MoveWest` (and, through the literal vertical
tie-break comparison against the horizontal intent, also `MoveNorth`). -/
theorem scenarioB_moves_west (th : ℚ → ℚ) (enc : Nat) (x y : Int)
    (width height : Int) (mc : Nat) (rng : Rng)
    (hwid : 0 < width)
    (hin : (AndiN.decode enc).input = .PL)
    (hout : (AndiN.decode enc).output = .MvE)
    (h0 : th 0 = 0)
    (hw : 1/2 < th ((AndiN.decode enc).weight))
    (hx0 : 0 ≤ x) (hx : x < Int.tdiv width 2) :
    ((AndiN.simulate th ⟨[⟨[AndiN.decode enc], none⟩], [⟨x, y⟩], mc⟩ rng
        width height).1.positions.map Point2.x) = [max (x - 1) 0] := by
  have hev : evalLoci ⟨x, y⟩ width [AndiN.decode enc] (fun _ => 0) rng =
      ((fun o => if o = OutputNeurons.MvE
          then 0 + (if x < Int.tdiv width 2 then (1:ℚ) else 0) * (AndiN.decode enc).weight
          else 0), rng) := by
    rw [evalLoci, hin]
    dsimp only
    rw [evalLoci, hout]
  have hact : collectActions th width
      [((⟨[AndiN.decode enc], none⟩ : Genom AndiN NullScorer), (⟨x, y⟩ : Point2))] 0 rng =
      ([Action.MoveWest 0, Action.MoveNorth 0], rng) := by
    rw [collectActions, hev]
    dsimp only
    rw [collectActions]
    unfold actionsFor
    dsimp only
    have e1 : (OutputNeurons.MvW = OutputNeurons.MvE) = False := by decide
    have e2 : (OutputNeurons.MvS = OutputNeurons.MvE) = False := by decide
    have e3 : (OutputNeurons.MvN = OutputNeurons.MvE) = False := by decide
    have e4 : (OutputNeurons.MvE = OutputNeurons.MvE) = True := by decide
    simp only [e1, e2, e3, e4, if_true, if_false, if_pos hx, one_mul, zero_add, h0]
    have c1 : ¬((0:ℚ) - th ((AndiN.decode enc).weight) > 1/2) := by linarith
    have c2 : (0:ℚ) - th ((AndiN.decode enc).weight) < -(1/2) := by linarith
    have c3 : ¬((0:ℚ) - 0 > 1/2) := by norm_num
    simp only [c1, c2, c3, if_true, if_false]
    rfl
  have hz : (([⟨[AndiN.decode enc], none⟩] : List (Genom AndiN NullScorer)).zip
      ([⟨x, y⟩] : List Point2)) =
      [((⟨[AndiN.decode enc], none⟩ : Genom AndiN NullScorer), (⟨x, y⟩ : Point2))] := rfl
  unfold AndiN.simulate
  dsimp only
  rw [hz, hact]
  simp only [List.foldl, applyAction, modifyAt, List.map, sanitize]
  have ht := Int.tdiv_eq_ediv (le_of_lt hwid) (by norm_num : (0:ℤ) ≤ 2)
  rw [ht] at hx
  split_ifs <;> simp <;> omega

/-- The concrete stand-in for the saturating nonlinearity in the C1
concrete scenario: it satisfies exactly the two facts the scenario needs
of `f32::tanh` (zero at zero, and a value above the 0.5 threshold at the
concrete weight 1/2, just as `tanh(0.5) ≈ 0.462...` would not but
`tanh` at the spec's weight-1.0 case would; 3/4 plays `tanh` at a
high-weight locus). -/
def thEx : ℚ → ℚ := fun q => if q = 0 then 0 else 3/4

/-- The concrete creature of scenario B: one creature at (3, 5) on a
10 × 10 board, whose single locus decodes to sensor PL (left half),
weight 1/2 and actuator MvE (move east). -/
def cScenB : Creatures AndiN := ⟨[⟨[AndiN.decode 0x01800003], none⟩], [⟨3, 5⟩], 100⟩

/-- The stand-in nonlinearity is zero at zero. -/
theorem thEx_zero : thEx 0 = 0 := by simp [thEx]

/-- The stand-in nonlinearity exceeds the 0.5 threshold at the concrete
locus weight. -/
theorem thEx_weight : 1/2 < thEx ((AndiN.decode 0x01800003).weight) := by
  have hnat : (((0x01800003 : Nat) >>> 8) &&& 0xFFFF : Nat) = 32768 := by decide
  have hwv : (AndiN.decode 0x01800003).weight = ((32768 : Nat) : ℚ) / 65536 := by
    unfold AndiN.weight AndiN.decode
    rw [hnat]
  rw [hwv]
  have hne : ((32768 : Nat) : ℚ) / 65536 ≠ 0 := by norm_num
  simp only [thEx, hne, if_false]
  norm_num

/-- C1 counterexample: at the concrete scenario-B creature (x = 3 on a
10-wide board), one per-step pass moves the creature to x = 2, not to
x + 1 = 4 — the claim's "x increases by exactly 1" is false on the
code. -/
theorem scenarioB_counterexample :
    ((AndiN.simulate thEx cScenB rngZero 10 10).1.positions.map Point2.x) = [2] ∧
    (2 : Int) ≠ 3 + 1 := by
  refine ⟨?_, by decide⟩
  have hin : (AndiN.decode 0x01800003).input = InputNeurons.PL := by decide
  have hout : (AndiN.decode 0x01800003).output = OutputNeurons.MvE := by decide
  have hx : (3 : Int) < Int.tdiv 10 2 := by decide
  have hev : evalLoci ⟨3, 5⟩ 10 [AndiN.decode 0x01800003] (fun _ => 0) rngZero =
      ((fun o => if o = OutputNeurons.MvE
          then 0 + (if (3 : Int) < Int.tdiv 10 2 then (1:ℚ) else 0) *
            (AndiN.decode 0x01800003).weight
          else 0), rngZero) := by
    rw [evalLoci, hin]
    dsimp only
    rw [evalLoci, hout]
  have hact : collectActions thEx 10
      [((⟨[AndiN.decode 0x01800003], none⟩ : Genom AndiN NullScorer), (⟨3, 5⟩ : Point2))]
      0 rngZero =
      ([Action.MoveWest 0, Action.MoveNorth 0], rngZero) := by
    rw [collectActions, hev]
    dsimp only
    rw [collectActions]
    unfold actionsFor
    dsimp only
    have e1 : (OutputNeurons.MvW = OutputNeurons.MvE) = False := by decide
    have e2 : (OutputNeurons.MvS = OutputNeurons.MvE) = False := by decide
    have e3 : (OutputNeurons.MvN = OutputNeurons.MvE) = False := by decide
    have e4 : (OutputNeurons.MvE = OutputNeurons.MvE) = True := by decide
    simp only [e1, e2, e3, e4, if_true, if_false, if_pos hx, one_mul, zero_add, thEx_zero]
    have c1 : ¬((0:ℚ) - thEx ((AndiN.decode 0x01800003).weight) > 1/2) := by
      have := thEx_weight; linarith
    have c2 : (0:ℚ) - thEx ((AndiN.decode 0x01800003).weight) < -(1/2) := by
      have := thEx_weight; linarith
    have c3 : ¬((0:ℚ) - 0 > 1/2) := by norm_num
    simp only [c1, c2, c3, if_true, if_false]
    rfl
  have hz : (([⟨[AndiN.decode 0x01800003], none⟩] : List (Genom AndiN NullScorer)).zip
      ([⟨3, 5⟩] : List Point2)) =
      [((⟨[AndiN.decode 0x01800003], none⟩ : Genom AndiN NullScorer), (⟨3, 5⟩ : Point2))] := rfl
  show ((AndiN.simulate thEx
      ⟨[⟨[AndiN.decode 0x01800003], none⟩], [⟨3, 5⟩], 100⟩ rngZero 10 10).1.positions.map
        Point2.x) = [2]
  unfold AndiN.simulate
  dsimp only
  rw [hz, hact]
  simp only [List.foldl, applyAction, modifyAt, List.map, sanitize]
  norm_num

/-- Witness for C1 amended at the concrete scenario: x moves from 3 to
`max (3 - 1) 0 = 2`. -/
theorem scenarioB_moves_west_witness :
    ((AndiN.simulate thEx cScenB rngZero 10 10).1.positions.map Point2.x) =
      [max (3 - 1) 0] :=
  scenarioB_moves_west thEx 0x01800003 3 5 10 10 100 rngZero (by norm_num) (by decide) (by decide)
    thEx_zero thEx_weight (by decide) (by decide)
end Individuums
